import Mathlib

/-!
Verification of the route-search and route-assembly engine of
`src/server/route-generator.py` (class `NJRouteGenerator`).

The Python code is shallowly embedded: node identifiers are naturals,
lengths and coordinates are exact rationals, the external shortest-path
primitive (`nx.shortest_path`) is a parameter `sp : ℕ → ℕ → Option (List ℕ)`,
and every random draw (`random.choice`, `random.sample`, `random.randint`)
is resolved through an explicit tape `ℕ → ℕ` of draw values.
-/

/-- Edge `name` attribute: absent, a single string, or a list of strings,
mirroring the three `isinstance` branches at lines 146-149 of the source. -/
inductive NameAttr where
  | nameNone : NameAttr
  | nameStr : String → NameAttr
  | nameList : List String → NameAttr
deriving DecidableEq

/-- Attributes carried by one edge row (`length`, `highway`, `maxspeed`,
`name`), as read by the generator. -/
structure EdgeAttrs where
  length : ℚ
  highway : String
  maxspeed : Option String
  rname : NameAttr
deriving DecidableEq

/-- The road-network graph: node list with coordinates (`nodes_gdf`),
an adjacency test and per-edge attribute lookup (`self.graph`), and the
edge rows (`edges_gdf`). `edgeAttrs u v` is meaningful when `adj u v`. -/
structure RoadGraph where
  nodes : List ℕ
  x : ℕ → ℚ
  y : ℕ → ℚ
  adj : ℕ → ℕ → Bool
  edgeAttrs : ℕ → ℕ → EdgeAttrs
  edgeList : List (ℕ × ℕ × EdgeAttrs)

/-- Output record: the fields of the GeoJSON feature dictionaries built at
lines 152-167 (scenic) and 245-260 (loop). The cosmetic name/description
strings are represented by the drawn numeric suffix. `roads` is `none`
exactly when the feature carries no `"roads"` key. -/
structure RouteFeature where
  rtype : String
  nameSuffix : ℕ
  distance_km : ℚ
  distance_miles : ℚ
  roads : Option (List String)
  difficulty : Option String
  isLoop : Bool
  center : Option (ℚ × ℚ)
  coordinates : List (ℚ × ℚ)
deriving DecidableEq

/-- Value of the leading digit run of a character list (stops at the first
non-digit), accumulator style. -/
def digitsVal : ℕ → List Char → ℕ
  | acc, [] => acc
  | acc, ch :: rest => if ch.isDigit then digitsVal (10 * acc + (ch.toNat - 48)) rest else acc

/-- First embedded integer of a character list, mirroring the pandas
`str.extract('(\d+)')` at line 75: the first maximal digit run, if any. -/
def firstInt? : List Char → Option ℕ
  | [] => none
  | ch :: rest => if ch.isDigit then some (digitsVal 0 (ch :: rest)) else firstInt? rest

/-- Whether a `maxspeed` attribute parses to a first embedded integer ≥ 45
(absent values parse to nothing and fail the test, as NaN does in pandas). -/
def speedAtLeast45 : Option String → Bool
  | none => false
  | some s =>
    match firstInt? s.data with
    | none => false
    | some k => decide (45 ≤ k)

/-- Road classes treated as major at line 74. -/
def majorHighways : List String := ["motorway", "trunk", "primary", "secondary"]

/-- The edge filter of lines 73-76: highway class in `majorHighways`, or
parsed maxspeed ≥ 45. -/
def isMajorEdgeB (e : ℕ × ℕ × EdgeAttrs) : Bool :=
  majorHighways.contains e.2.2.highway || speedAtLeast45 e.2.2.maxspeed

/-- Endpoint nodes of the major edges (lines 78-84): the `major_nodes` set,
listed without duplicates. -/
def majorNodesList (g : RoadGraph) : List ℕ :=
  ((g.edgeList.filter isMajorEdgeB).flatMap (fun e => [e.1, e.2.1])).dedup

/-- Edge-attribute snapshots along a route, one per consecutive node pair,
mirroring `ox.utils_graph.get_route_edge_attributes`. -/
def routeEdges (g : RoadGraph) (r : List ℕ) : List EdgeAttrs :=
  (r.zip r.tail).map (fun p => g.edgeAttrs p.1 p.2)

/-- Total length of a route: the sum of its traversed edge lengths
(lines 112-115). -/
def routeLength (g : RoadGraph) (r : List ℕ) : ℚ :=
  ((routeEdges g r).map (fun e => e.length)).sum

/-- Road names contributed by one edge's `name` attribute (lines 146-149). -/
def namesOf : NameAttr → List String
  | .nameNone => []
  | .nameStr s => [s]
  | .nameList l => l

/-- The set of distinct road names encountered along the route's edges
(lines 144-149), listed without duplicates. -/
def roadNamesOf (es : List EdgeAttrs) : List String :=
  (es.flatMap (fun e => namesOf e.rname)).dedup

/-- Resolution of `random.choice(l)` against one tape value: an index into
the list (taken modulo its length). -/
def choice (l : List ℕ) (r : ℕ) : ℕ := l.getD (r % l.length) 0

/-- Resolution of `random.randint(1000, 9999)` against one tape value. -/
def randSuffix (r : ℕ) : ℕ := 1000 + r % 9000

/-- Difficulty computation of `_calculate_difficulty` (lines 264-284),
translated clause by clause; the float thresholds 0.5, 0.6, 0.4 are the
exact rationals 1/2, 3/5, 2/5. -/
def calculate_difficulty (route_edges : List EdgeAttrs) : String :=
  let highway_types := route_edges.map (fun e => e.highway)
  let motorway_count := (highway_types.filter (fun h => h == "motorway" || h == "motorway_link")).length
  let primary_count := (highway_types.filter (fun h => h == "primary" || h == "trunk")).length
  let total := highway_types.length
  if total = 0 then "medium"
  else if (1 : ℚ)/2 < (motorway_count : ℚ) / (total : ℚ) then "extreme"
  else if (3 : ℚ)/5 < ((motorway_count : ℚ) + (primary_count : ℚ)) / (total : ℚ) then "hard"
  else if (2 : ℚ)/5 < (primary_count : ℚ) / (total : ℚ) then "medium"
  else "easy"

/-- DifficultyClassifier as the spec states it (section 4.4): ratios first,
then the ordered threshold checks. Used to check `calculate_difficulty`
against the spec's wording. -/
def difficultySpec (classes : List String) : String :=
  let total := classes.length
  let motorwayFrac : ℚ := (classes.countP (fun h => h == "motorway" || h == "motorway_link") : ℚ) / (total : ℚ)
  let primaryFrac : ℚ := (classes.countP (fun h => h == "primary" || h == "trunk") : ℚ) / (total : ℚ)
  if total = 0 then "medium"
  else if motorwayFrac > 1/2 then "extreme"
  else if motorwayFrac + primaryFrac > 3/5 then "hard"
  else if primaryFrac > 2/5 then "medium"
  else "easy"

/-- Running state of the scenic search: `best_route` and `best_distance`
(lines 91-92). -/
structure ScenicAcc where
  best : Option (List ℕ)
  bestDist : ℚ
deriving DecidableEq

/-- One iteration of the scenic retry loop (lines 94-124): draw start and
end from the major-node list, skip equal draws and no-path draws, and
record an in-window route when it strictly beats the best distance. -/
def scenicAttempt (g : RoadGraph) (sp : ℕ → ℕ → Option (List ℕ)) (lst : List ℕ)
    (minD maxD : ℚ) (acc : ScenicAcc) (dr : ℕ × ℕ) : ScenicAcc :=
  let s := choice lst dr.1
  let e := choice lst dr.2
  if s = e then acc
  else
    match sp s e with
    | none => acc
    | some route =>
      let total := routeLength g route
      if minD ≤ total ∧ total ≤ maxD then
        if acc.bestDist < total then ⟨some route, total⟩ else acc
      else acc

/-- The 20 draw pairs consumed by one scenic search: tape positions
0..39, two per attempt. -/
def scenicDraws (t : ℕ → ℕ) : List (ℕ × ℕ) :=
  (List.range 20).map (fun i => (t (2 * i), t (2 * i + 1)))

/-- Core of `generate_scenic_route` (lines 72-128): the best route and its
recorded distance, or `none` (insufficient major nodes, or budget exhausted
with nothing recorded). -/
def scenicRoute? (g : RoadGraph) (sp : ℕ → ℕ → Option (List ℕ))
    (minD maxD : ℚ) (t : ℕ → ℕ) : Option (List ℕ × ℚ) :=
  let lst := majorNodesList g
  if lst.length < 2 then none
  else
    let acc := (scenicDraws t).foldl (scenicAttempt g sp lst minD maxD) ⟨none, 0⟩
    acc.best.map (fun r => (r, acc.bestDist))

/-- Feature assembly for a scenic route (lines 130-167): geometry is one
coordinate pair per route node; `roads` keeps at most 10 distinct names;
1609.34 is the exact rational 160934/100. -/
def mkScenicFeature (g : RoadGraph) (r : List ℕ) (dist : ℚ) (sfx : ℕ) : RouteFeature :=
  let es := routeEdges g r
  { rtype := "ai_generated"
    nameSuffix := randSuffix sfx
    distance_km := dist / 1000
    distance_miles := dist / (160934 / 100)
    roads := some ((roadNamesOf es).take 10)
    difficulty := some (calculate_difficulty es)
    isLoop := false
    center := none
    coordinates := r.map (fun n => (g.x n, g.y n)) }

/-- `generate_scenic_route` (lines 58-169): search, then feature assembly;
`sfx` resolves the cosmetic `random.randint(1000, 9999)` suffix. -/
def generate_scenic_route (g : RoadGraph) (sp : ℕ → ℕ → Option (List ℕ))
    (minD maxD : ℚ) (t : ℕ → ℕ) (sfx : ℕ) : Option RouteFeature :=
  (scenicRoute? g sp minD maxD t).map (fun rd => mkScenicFeature g rd.1 rd.2 sfx)

/-- The qualification outcome of a single scenic draw pair: the sampled
route and its length when the draw is unequal, a path exists, and the
length lies in the window; `none` otherwise. -/
def scenicCandidate (g : RoadGraph) (sp : ℕ → ℕ → Option (List ℕ)) (lst : List ℕ)
    (minD maxD : ℚ) (dr : ℕ × ℕ) : Option (List ℕ × ℚ) :=
  let s := choice lst dr.1
  let e := choice lst dr.2
  if s = e then none
  else
    match sp s e with
    | none => none
    | some route =>
      let total := routeLength g route
      if minD ≤ total ∧ total ≤ maxD then some (route, total) else none

/-- All qualifying (in-window) sampled routes of a draw list, in sampling
order. -/
def scenicCandidates (g : RoadGraph) (sp : ℕ → ℕ → Option (List ℕ)) (lst : List ℕ)
    (minD maxD : ℚ) (drs : List (ℕ × ℕ)) : List (List ℕ × ℚ) :=
  drs.filterMap (scenicCandidate g sp lst minD maxD)

/-- The best-so-far update applied to one qualifying candidate
(lines 118-121). -/
def bestStep (acc : ScenicAcc) (c : List ℕ × ℚ) : ScenicAcc :=
  if acc.bestDist < c.2 then ⟨some c.1, c.2⟩ else acc

/-- Squared planar distance between two coordinate pairs. -/
def dist2 (a b : ℚ × ℚ) : ℚ := (a.1 - b.1) ^ 2 + (a.2 - b.2) ^ 2

/-- Neighborhood test of line 198, `center.distance(node) * 111000 <= radius`,
stated square-free: for a nonnegative radius both sides of the original
comparison are nonnegative, so it is equivalent to comparing squares; for a
negative radius the original comparison is false. -/
def nearBool (g : RoadGraph) (c : ℚ × ℚ) (radius : ℚ) (n : ℕ) : Bool :=
  decide (0 ≤ radius) && decide (dist2 c (g.x n, g.y n) * (111000 * 111000) ≤ radius * radius)

/-- Resolution of `random.sample(pool, k)` against tape positions starting
at `pos`: repeatedly pick a remaining element by tape index and remove it,
yielding `min k pool.length` distinct elements of the pool. -/
def sampleK (t : ℕ → ℕ) : ℕ → ℕ → List ℕ → List ℕ
  | _, 0, _ => []
  | pos, k + 1, pool =>
    if pool.isEmpty then []
    else
      let i := t pos % pool.length
      pool.getD i 0 :: sampleK t (pos + 1) k (pool.eraseIdx i)

/-- Center used by the loop builder (lines 186-190): the supplied center,
or the coordinate of a tape-chosen random node. -/
def loopCenterOf (g : RoadGraph) (c? : Option (ℚ × ℚ)) (t : ℕ → ℕ) : ℚ × ℚ :=
  match c? with
  | some c => c
  | none => (g.x (choice g.nodes (t 0)), g.y (choice g.nodes (t 0)))

/-- First tape position left for waypoint sampling (one draw is consumed
by the random center when none is supplied). -/
def loopTapeStart (c? : Option (ℚ × ℚ)) : ℕ :=
  match c? with
  | some _ => 0
  | none => 1

/-- Nodes within the radius of the center (lines 192-199). -/
def loopNearby (g : RoadGraph) (c? : Option (ℚ × ℚ)) (radius : ℚ) (t : ℕ → ℕ) : List ℕ :=
  g.nodes.filter (nearBool g (loopCenterOf g c? t) radius)

/-- The sampled waypoints, `random.sample(nearby_nodes, min(4, len(nearby_nodes)))`
(line 206). -/
def loopWaypoints (g : RoadGraph) (c? : Option (ℚ × ℚ)) (radius : ℚ) (t : ℕ → ℕ) : List ℕ :=
  sampleK t (loopTapeStart c?) (min 4 (loopNearby g c? radius t).length) (loopNearby g c? radius t)

/-- The consecutive waypoint pairs of the loop, wrap-around included,
using the source's indexing `(i, (i+1) % len)` (lines 212-214). -/
def loopPairs (ws : List ℕ) : List (ℕ × ℕ) :=
  (List.range ws.length).map (fun i => (ws.getD i 0, ws.getD ((i + 1) % ws.length) 0))

/-- Segment stitching of lines 209-234: shortest path per pair, failure of
any pair fails the whole loop, every segment after the first is truncated
by its leading junction node, and — exactly as in the source — each
segment's contribution to the total is computed on the truncated segment. -/
def stitch (g : RoadGraph) (sp : ℕ → ℕ → Option (List ℕ)) :
    List (ℕ × ℕ) → Bool → Option (List ℕ × ℚ)
  | [], _ => some ([], 0)
  | (s, e) :: rest, first =>
    match sp s e with
    | none => none
    | some seg0 =>
      let seg := if first then seg0 else seg0.drop 1
      match stitch g sp rest false with
      | none => none
      | some rd => some (seg ++ rd.1, routeLength g seg + rd.2)

/-- Core of `generate_loop_route` (lines 171-234): the stitched node
sequence, the accumulated total distance, and the center. -/
def loopRoute? (g : RoadGraph) (sp : ℕ → ℕ → Option (List ℕ))
    (c? : Option (ℚ × ℚ)) (radius : ℚ) (t : ℕ → ℕ) : Option (List ℕ × ℚ × (ℚ × ℚ)) :=
  if (loopNearby g c? radius t).length < 4 then none
  else
    (stitch g sp (loopPairs (loopWaypoints g c? radius t)) true).map
      (fun rd => (rd.1, rd.2, loopCenterOf g c? t))

/-- Feature assembly for a loop route (lines 236-260): no `roads` and no
`difficulty` key, `loop` flag and center instead. -/
def mkLoopFeature (g : RoadGraph) (r : List ℕ) (dist : ℚ) (c : ℚ × ℚ) (sfx : ℕ) : RouteFeature :=
  { rtype := "ai_loop"
    nameSuffix := randSuffix sfx
    distance_km := dist / 1000
    distance_miles := dist / (160934 / 100)
    roads := none
    difficulty := none
    isLoop := true
    center := some c
    coordinates := r.map (fun n => (g.x n, g.y n)) }

/-- `generate_loop_route` (lines 171-262). -/
def generate_loop_route (g : RoadGraph) (sp : ℕ → ℕ → Option (List ℕ))
    (c? : Option (ℚ × ℚ)) (radius : ℚ) (t : ℕ → ℕ) (sfx : ℕ) : Option RouteFeature :=
  (loopRoute? g sp c? radius t).map (fun rdc => mkLoopFeature g rdc.1 rdc.2.1 rdc.2.2 sfx)

/-- Resolution of `random.randint(lo, hi)` (inclusive bounds) against one
tape value. -/
def randint (lo hi : ℤ) (r : ℕ) : ℤ := lo + ((r % (hi - lo + 1).toNat : ℕ) : ℤ)

/-- One iteration of `generate_multiple_routes` (lines 299-312): even
indices attempt a scenic route with jittered window, odd indices a loop
route with jittered radius. `R i` is the random tape of iteration `i`
(positions 0 and 1 feed the jitters, 2.. the search, 1000 the name suffix). -/
def routeAttempt (g : RoadGraph) (sp : ℕ → ℕ → Option (List ℕ))
    (R : ℕ → ℕ → ℕ) (i : ℕ) : Option RouteFeature :=
  if i % 2 = 0 then
    generate_scenic_route g sp
      ((15000 : ℚ) + ((randint (-5000) 10000 (R i 0) : ℤ) : ℚ))
      ((50000 : ℚ) + ((randint (-10000) 20000 (R i 1) : ℤ) : ℚ))
      (fun k => R i (k + 2)) (R i 1000)
  else
    generate_loop_route g sp none
      ((3000 : ℚ) + ((randint 1000 5000 (R i 0) : ℤ) : ℚ))
      (fun k => R i (k + 1)) (R i 1000)

/-- Append the outcome of one attempt when it succeeded, mirroring
`if route: features.append(route)` (lines 314-315). -/
def appendSome {α β : Type} (f : α → Option β) (acc : List β) (x : α) : List β :=
  match f x with
  | some b => acc ++ [b]
  | none => acc

/-- `generate_multiple_routes` (lines 286-320): successes are appended in
index order, failures are skipped. -/
def generate_multiple_routes (g : RoadGraph) (sp : ℕ → ℕ → Option (List ℕ))
    (R : ℕ → ℕ → ℕ) (num_routes : ℕ) : List RouteFeature :=
  (List.range num_routes).foldl (appendSome (routeAttempt g sp R)) []

/-- Default attribute record for node pairs that carry no edge. -/
def noAttrs : EdgeAttrs :=
  { length := 0, highway := "", maxspeed := none, rname := .nameNone }

/-- Attribute records of the four-node example cycle. -/
def exAttrs : ℕ × ℕ → EdgeAttrs
  | (0, 1) => { length := 200, highway := "primary", maxspeed := some "50", rname := .nameStr "Alpha Road" }
  | (1, 2) => { length := 150, highway := "primary", maxspeed := some "50", rname := .nameStr "Beta Road" }
  | (2, 3) => { length := 300, highway := "residential", maxspeed := some "55 mph", rname := .nameList ["Gamma Road", "Delta Road"] }
  | (3, 0) => { length := 250, highway := "secondary", maxspeed := none, rname := .nameNone }
  | _ => noAttrs

/-- Example graph: a directed four-node cycle 0 → 1 → 2 → 3 → 0 with
segment lengths 200, 150, 300, 250 meters; every edge is major. -/
def Gex : RoadGraph :=
  { nodes := [0, 1, 2, 3]
    x := fun n => if n = 1 || n = 2 then 1 else 0
    y := fun n => if n = 2 || n = 3 then 1 else 0
    adj := fun u v => [(0, 1), (1, 2), (2, 3), (3, 0)].contains (u, v)
    edgeAttrs := fun u v => exAttrs (u, v)
    edgeList := [(0, 1, exAttrs (0, 1)), (1, 2, exAttrs (1, 2)), (2, 3, exAttrs (2, 3)), (3, 0, exAttrs (3, 0))] }

/-- Shortest-path table of the example cycle: each cycle edge is its own
shortest path. -/
def spTable : List ((ℕ × ℕ) × List ℕ) :=
  [((0, 1), [0, 1]), ((1, 2), [1, 2]), ((2, 3), [2, 3]), ((3, 0), [3, 0])]

/-- Shortest-path oracle of the example cycle, a lookup in `spTable`. -/
def spEx (s e : ℕ) : Option (List ℕ) :=
  (spTable.find? (fun q => decide (q.1 = (s, e)))).map (fun q => q.2)

/-- Scenic tape for `Gex`: every attempt draws start node 0 and end node 1. -/
def tEx : ℕ → ℕ := fun i => if i % 2 = 0 then 3 else 0

/-- Loop tape for `Gex`: always pick index 0, so the waypoints come out in
pool order. -/
def tLoop : ℕ → ℕ := fun _ => 0


/-- Attribute record of the single zero-length edge of `Gz`. -/
def zAttrs : EdgeAttrs :=
  { length := 0, highway := "primary", maxspeed := some "50", rname := .nameNone }

/-- Two-node graph whose only edge is major and has length 0. -/
def Gz : RoadGraph :=
  { nodes := [0, 1]
    x := fun _ => 0
    y := fun _ => 0
    adj := fun u v => decide ((u, v) = (0, 1))
    edgeAttrs := fun _ _ => zAttrs
    edgeList := [(0, 1, zAttrs)] }

/-- Shortest-path oracle of `Gz`. -/
def spz (s e : ℕ) : Option (List ℕ) :=
  if s = 0 ∧ e = 1 then some [0, 1] else none

/-- Scenic tape for `Gz`: every attempt draws start node 0 and end node 1. -/
def tz : ℕ → ℕ := fun i => if i % 2 = 0 then 0 else 1

/-- Two-node graph whose only edge is a slow residential road, so that no
edge passes the major filter. -/
def gNoMajor : RoadGraph :=
  { nodes := [0, 1]
    x := fun _ => 0
    y := fun _ => 0
    adj := fun _ _ => false
    edgeAttrs := fun _ _ =>
      { length := 100, highway := "residential", maxspeed := some "30 mph", rname := .nameNone }
    edgeList := [(0, 1, { length := 100, highway := "residential", maxspeed := some "30 mph", rname := .nameNone })] }


/-- A nonempty path with distinct known endpoints decomposes as its head
followed by a nonempty tail ending in the same last node. -/
theorem path_shape {p : List ℕ} {s e : ℕ} (hh : p.head? = some s)
    (hl : p.getLast? = some e) (hne : s ≠ e) :
    ∃ q, p = s :: q ∧ q ≠ [] ∧ q.getLast? = some e := by
  cases p with
  | nil => simp at hh
  | cons a q =>
    have ha : a = s := by simpa using hh
    subst ha
    cases q with
    | nil =>
      simp [List.getLast?] at hl
      exact absurd hl hne
    | cons b q' =>
      refine ⟨b :: q', rfl, by simp, ?_⟩
      rw [List.getLast?_cons_cons] at hl
      exact hl

/-- Once the best-route slot is filled it never empties again. -/
theorem bestStep_some_stable (cs : List (List ℕ × ℚ)) :
    ∀ acc : ScenicAcc, acc.best.isSome → ((cs.foldl bestStep acc).best).isSome := by
  induction cs with
  | nil => exact fun acc h => h
  | cons c t ih =>
    intro acc h
    rw [List.foldl_cons]
    apply ih
    unfold bestStep
    split
    · rfl
    · exact h

/-- If no candidate beats the current best distance, the fold is the
identity. -/
theorem bestStep_no_update (cs : List (List ℕ × ℚ)) :
    ∀ acc : ScenicAcc, (∀ p ∈ cs, p.2 ≤ acc.bestDist) → cs.foldl bestStep acc = acc := by
  induction cs with
  | nil => exact fun _ _ => rfl
  | cons c t ih =>
    intro acc h
    rw [List.foldl_cons]
    have hc : c.2 ≤ acc.bestDist := h c (by simp)
    have hstep : bestStep acc c = acc := by
      unfold bestStep
      rw [if_neg (not_lt.mpr hc)]
    rw [hstep]
    exact ih acc fun p hp => h p (List.mem_cons_of_mem _ hp)

/-- If the fold ends with an empty best slot, it started empty, never
moved, and every candidate was at most the starting best distance. -/
theorem foldl_bestStep_none (cs : List (List ℕ × ℚ)) :
    ∀ acc : ScenicAcc, (cs.foldl bestStep acc).best = none →
      acc.best = none ∧ cs.foldl bestStep acc = acc ∧ ∀ p ∈ cs, p.2 ≤ acc.bestDist := by
  induction cs with
  | nil => exact fun acc h => ⟨h, rfl, by simp⟩
  | cons c t ih =>
    intro acc h
    rw [List.foldl_cons] at h ⊢
    by_cases hlt : acc.bestDist < c.2
    · exfalso
      have hsome : (bestStep acc c).best.isSome := by
        unfold bestStep
        rw [if_pos hlt]
        rfl
      have := bestStep_some_stable t _ hsome
      rw [h] at this
      simp at this
    · have hstep : bestStep acc c = acc := by
        unfold bestStep
        rw [if_neg hlt]
      rw [hstep] at h ⊢
      obtain ⟨h1, h2, h3⟩ := ih acc h
      refine ⟨h1, h2, fun p hp => ?_⟩
      rcases List.mem_cons.mp hp with rfl | hp'
      · exact not_lt.mp hlt
      · exact h3 p hp'

/-- If the fold ends with best route `r` and best distance `d`, then either
the start state already was `(r, d)` and nothing beat it, or `d` beats the
starting distance and the candidate list splits around the first candidate
attaining `(r, d)`: everything before it is strictly shorter, everything
after it is no longer. -/
theorem foldl_bestStep_some (cs : List (List ℕ × ℚ)) :
    ∀ (acc : ScenicAcc) (r : List ℕ) (d : ℚ),
      cs.foldl bestStep acc = ⟨some r, d⟩ →
      (acc = ⟨some r, d⟩ ∧ ∀ p ∈ cs, p.2 ≤ d) ∨
      (acc.bestDist < d ∧ ∃ l₁ l₂, cs = l₁ ++ (r, d) :: l₂ ∧
        (∀ p ∈ l₁, p.2 < d) ∧ (∀ p ∈ l₂, p.2 ≤ d)) := by
  induction cs with
  | nil => exact fun acc r d h => Or.inl ⟨h, by simp⟩
  | cons c t ih =>
    intro acc r d h
    rw [List.foldl_cons] at h
    by_cases hlt : acc.bestDist < c.2
    · have hstep : bestStep acc c = ⟨some c.1, c.2⟩ := by
        unfold bestStep
        rw [if_pos hlt]
      rw [hstep] at h
      rcases ih _ r d h with ⟨heq, hall⟩ | ⟨hltd, l₁, l₂, hsplit, hbefore, hafter⟩
      · have hc1 : c.1 = r := by
          have := congrArg ScenicAcc.best heq
          simpa using this
        have hc2 : c.2 = d := congrArg ScenicAcc.bestDist heq
        refine Or.inr ⟨hc2 ▸ hlt, [], t, ?_, by simp, hall⟩
        have : c = (r, d) := Prod.ext hc1 hc2
        rw [List.nil_append, this]
      · refine Or.inr ⟨lt_trans hlt hltd, c :: l₁, l₂, ?_, ?_, hafter⟩
        · rw [List.cons_append, hsplit]
        · intro p hp
          rcases List.mem_cons.mp hp with rfl | hp'
          · exact hltd
          · exact hbefore p hp'
    · have hstep : bestStep acc c = acc := by
        unfold bestStep
        rw [if_neg hlt]
      rw [hstep] at h
      rcases ih acc r d h with ⟨heq, hall⟩ | ⟨hltd, l₁, l₂, hsplit, hbefore, hafter⟩
      · refine Or.inl ⟨heq, fun p hp => ?_⟩
        rcases List.mem_cons.mp hp with rfl | hp'
        · have hd : acc.bestDist = d := congrArg ScenicAcc.bestDist heq
          exact hd ▸ not_lt.mp hlt
        · exact hall p hp'
      · refine Or.inr ⟨hltd, c :: l₁, l₂, by rw [List.cons_append, hsplit], ?_, hafter⟩
        intro p hp
        rcases List.mem_cons.mp hp with rfl | hp'
        · exact lt_of_le_of_lt (not_lt.mp hlt) hltd
        · exact hbefore p hp'

/-- One retry-loop iteration is the best-so-far update applied to the
iteration's qualification outcome. -/
theorem scenicAttempt_eq (g : RoadGraph) (sp : ℕ → ℕ → Option (List ℕ)) (lst : List ℕ)
    (minD maxD : ℚ) (acc : ScenicAcc) (dr : ℕ × ℕ) :
    scenicAttempt g sp lst minD maxD acc dr =
      match scenicCandidate g sp lst minD maxD dr with
      | some c => bestStep acc c
      | none => acc := by
  unfold scenicAttempt scenicCandidate bestStep
  by_cases hse : choice lst dr.1 = choice lst dr.2
  · simp only [hse, if_pos rfl, if_true]
  · simp only [if_neg hse]
    cases hsp : sp (choice lst dr.1) (choice lst dr.2) with
    | none => rfl
    | some route =>
      by_cases hw : minD ≤ routeLength g route ∧ routeLength g route ≤ maxD
      · simp only [if_pos hw]
      · simp only [if_neg hw]

/-- Running the retry loop over a draw list is folding the best-so-far
update over its qualifying candidates. -/
theorem foldl_scenicAttempt_eq (g : RoadGraph) (sp : ℕ → ℕ → Option (List ℕ)) (lst : List ℕ)
    (minD maxD : ℚ) (drs : List (ℕ × ℕ)) :
    ∀ acc : ScenicAcc,
      drs.foldl (scenicAttempt g sp lst minD maxD) acc =
        (scenicCandidates g sp lst minD maxD drs).foldl bestStep acc := by
  induction drs with
  | nil => exact fun _ => rfl
  | cons dr tl ih =>
    intro acc
    rw [List.foldl_cons, scenicAttempt_eq]
    unfold scenicCandidates
    rw [List.filterMap_cons]
    cases hc : scenicCandidate g sp lst minD maxD dr with
    | none => exact ih acc
    | some c =>
      rw [List.foldl_cons]
      exact ih (bestStep acc c)

/-- A qualifying candidate is a sampled route between distinct draws whose
recorded distance is its route length and lies in the window. -/
theorem scenicCandidate_spec {g : RoadGraph} {sp : ℕ → ℕ → Option (List ℕ)} {lst : List ℕ}
    {minD maxD : ℚ} {dr : ℕ × ℕ} {r : List ℕ} {d : ℚ}
    (h : scenicCandidate g sp lst minD maxD dr = some (r, d)) :
    d = routeLength g r ∧ minD ≤ d ∧ d ≤ maxD ∧ ∃ s e, s ≠ e ∧ sp s e = some r := by
  unfold scenicCandidate at h
  by_cases hse : choice lst dr.1 = choice lst dr.2
  · simp [hse] at h
  · simp only [if_neg hse] at h
    cases hsp : sp (choice lst dr.1) (choice lst dr.2) with
    | none => rw [hsp] at h; simp at h
    | some route =>
      rw [hsp] at h
      simp only at h
      by_cases hw : minD ≤ routeLength g route ∧ routeLength g route ≤ maxD
      · rw [if_pos hw] at h
        have hr : route = r := congrArg Prod.fst (Option.some.inj h)
        have hd : routeLength g route = d := congrArg Prod.snd (Option.some.inj h)
        subst hr
        exact ⟨hd.symm, hd ▸ hw.1, hd ▸ hw.2, _, _, hse, hsp⟩
      · rw [if_neg hw] at h
        simp at h

/-- With fewer than two candidates in the pool, both draws of an attempt
resolve to the same node. -/
theorem choice_eq_of_short {lst : List ℕ} (h : lst.length < 2) (a b : ℕ) :
    choice lst a = choice lst b := by
  match lst, h with
  | [], _ => rfl
  | [x], _ => simp [choice, Nat.mod_one]

/-- With fewer than two candidates in the pool, no attempt qualifies. -/
theorem scenicCandidate_of_short {g : RoadGraph} {sp : ℕ → ℕ → Option (List ℕ)} {lst : List ℕ}
    {minD maxD : ℚ} (h : lst.length < 2) (dr : ℕ × ℕ) :
    scenicCandidate g sp lst minD maxD dr = none := by
  unfold scenicCandidate
  simp only [if_pos (choice_eq_of_short h dr.1 dr.2)]

/-- The scenic search returns nothing exactly when every qualifying sampled
route of its 20 attempts has distance at most 0 (in particular when none
qualifies). -/
theorem scenicRoute?_none_iff (g : RoadGraph) (sp : ℕ → ℕ → Option (List ℕ))
    (minD maxD : ℚ) (t : ℕ → ℕ) :
    scenicRoute? g sp minD maxD t = none ↔
      ∀ c ∈ scenicCandidates g sp (majorNodesList g) minD maxD (scenicDraws t), c.2 ≤ 0 := by
  unfold scenicRoute?
  by_cases hlen : (majorNodesList g).length < 2
  · simp only [if_pos hlen]
    constructor
    · intro _ c hc
      have : scenicCandidates g sp (majorNodesList g) minD maxD (scenicDraws t) = [] :=
        List.filterMap_eq_nil_iff.mpr fun dr _ => scenicCandidate_of_short hlen dr
      rw [this] at hc
      simp at hc
    · intro _
      trivial
  · simp only [if_neg hlen]
    rw [foldl_scenicAttempt_eq]
    constructor
    · intro h
      have hb := Option.map_eq_none'.mp h
      obtain ⟨_, _, h3⟩ := foldl_bestStep_none _ _ hb
      exact h3
    · intro h
      have hid := bestStep_no_update
        (scenicCandidates g sp (majorNodesList g) minD maxD (scenicDraws t)) ⟨none, 0⟩ h
      rw [hid]
      rfl

/-- A returned scenic route has positive recorded distance and is the
first qualifying sampled route attaining the maximum distance: all earlier
candidates are strictly shorter, all later ones no longer. -/
theorem scenicRoute?_some {g : RoadGraph} {sp : ℕ → ℕ → Option (List ℕ)}
    {minD maxD : ℚ} {t : ℕ → ℕ} {r : List ℕ} {d : ℚ}
    (h : scenicRoute? g sp minD maxD t = some (r, d)) :
    0 < d ∧ ∃ l₁ l₂,
      scenicCandidates g sp (majorNodesList g) minD maxD (scenicDraws t) = l₁ ++ (r, d) :: l₂ ∧
      (∀ p ∈ l₁, p.2 < d) ∧ (∀ p ∈ l₂, p.2 ≤ d) := by
  unfold scenicRoute? at h
  by_cases hlen : (majorNodesList g).length < 2
  · rw [if_pos hlen] at h
    simp at h
  · rw [if_neg hlen] at h
    rw [foldl_scenicAttempt_eq] at h
    obtain ⟨r', hr', heq⟩ := Option.map_eq_some'.mp h
    have hAeq : (scenicCandidates g sp (majorNodesList g) minD maxD (scenicDraws t)).foldl
        bestStep ⟨none, 0⟩ = ⟨some r, d⟩ := by
      have h1 : r' = r := congrArg Prod.fst heq
      have h2 : ((scenicCandidates g sp (majorNodesList g) minD maxD (scenicDraws t)).foldl
          bestStep ⟨none, 0⟩).bestDist = d := congrArg Prod.snd heq
      cases hA : (scenicCandidates g sp (majorNodesList g) minD maxD (scenicDraws t)).foldl
          bestStep ⟨none, 0⟩ with
      | mk b bd =>
        rw [hA] at hr' h2
        have hb : b = some r := by
          rw [show b = some r' from hr', h1]
        have hbd : bd = d := h2
        rw [hb, hbd]
    rcases foldl_bestStep_some _ _ _ _ hAeq with ⟨heq0, _⟩ | ⟨hpos, l₁, l₂, hsplit, hbefore, hafter⟩
    · exfalso
      have := congrArg ScenicAcc.best heq0
      simp at this
    · exact ⟨hpos, l₁, l₂, hsplit, hbefore, hafter⟩

/-- An in-bounds `getD` is a member of the list. -/
theorem getD_mem_of_lt {l : List ℕ} {i : ℕ} (h : i < l.length) : l.getD i 0 ∈ l := by
  rw [List.getD_eq_getElem l 0 h]
  exact List.getElem_mem h

/-- Removing an index keeps the list duplicate-free. -/
theorem eraseIdx_nodup {l : List ℕ} (h : l.Nodup) (i : ℕ) : (l.eraseIdx i).Nodup :=
  List.Nodup.sublist (List.eraseIdx_sublist l i) h

/-- In a duplicate-free list, the element at an index does not survive the
removal of that index. -/
theorem getD_not_mem_eraseIdx : ∀ (l : List ℕ) (i : ℕ), l.Nodup → i < l.length →
    l.getD i 0 ∉ l.eraseIdx i := by
  intro l
  induction l with
  | nil =>
    intro i _ hi
    simp at hi
  | cons a tl ih =>
    intro i hnd hi
    cases i with
    | zero =>
      simpa using (List.nodup_cons.mp hnd).1
    | succ j =>
      have hj : j < tl.length := by simpa using hi
      simp only [List.getD_cons_succ, List.eraseIdx_cons_succ, List.mem_cons, not_or]
      constructor
      · intro hEq
        exact (List.nodup_cons.mp hnd).1 (hEq ▸ getD_mem_of_lt hj)
      · exact ih j (List.nodup_cons.mp hnd).2 hj

/-- The waypoint sample has `min k pool.length` elements. -/
theorem sampleK_length (t : ℕ → ℕ) : ∀ (k pos : ℕ) (pool : List ℕ),
    (sampleK t pos k pool).length = min k pool.length := by
  intro k
  induction k with
  | zero =>
    intro pos pool
    simp [sampleK]
  | succ k ih =>
    intro pos pool
    cases pool with
    | nil => simp [sampleK]
    | cons a tl =>
      rw [sampleK]
      simp only [List.isEmpty_cons, Bool.false_eq_true, if_false, List.length_cons]
      rw [ih]
      have hlt : t pos % (a :: tl).length < (a :: tl).length :=
        Nat.mod_lt _ (Nat.succ_pos _)
      have herase : ((a :: tl).eraseIdx (t pos % (a :: tl).length)).length + 1 =
          (a :: tl).length := List.length_eraseIdx_add_one hlt
      simp only [List.length_cons] at herase ⊢
      omega

/-- Every sampled waypoint comes from the pool. -/
theorem sampleK_subset (t : ℕ → ℕ) : ∀ (k pos : ℕ) (pool : List ℕ) (x : ℕ),
    x ∈ sampleK t pos k pool → x ∈ pool := by
  intro k
  induction k with
  | zero =>
    intro pos pool x h
    simp [sampleK] at h
  | succ k ih =>
    intro pos pool x h
    cases pool with
    | nil => simp [sampleK] at h
    | cons a tl =>
      rw [sampleK] at h
      simp only [List.isEmpty_cons, Bool.false_eq_true, if_false] at h
      rcases List.mem_cons.mp h with rfl | h'
      · exact getD_mem_of_lt (Nat.mod_lt _ (Nat.succ_pos _))
      · exact (List.eraseIdx_sublist _ _).subset (ih _ _ _ h')

/-- Sampling without replacement from a duplicate-free pool yields distinct
waypoints. -/
theorem sampleK_nodup (t : ℕ → ℕ) : ∀ (k pos : ℕ) (pool : List ℕ),
    pool.Nodup → (sampleK t pos k pool).Nodup := by
  intro k
  induction k with
  | zero =>
    intro pos pool _
    simp [sampleK]
  | succ k ih =>
    intro pos pool hnd
    cases pool with
    | nil => simp [sampleK]
    | cons a tl =>
      rw [sampleK]
      simp only [List.isEmpty_cons, Bool.false_eq_true, if_false]
      rw [List.nodup_cons]
      refine ⟨fun hmem => ?_, ih _ _ (eraseIdx_nodup hnd _)⟩
      exact getD_not_mem_eraseIdx _ _ hnd (Nat.mod_lt _ (Nat.succ_pos _))
        (sampleK_subset t k (pos + 1) _ _ hmem)

/-- A list of length four is a four-element literal. -/
theorem length_eq_four {l : List ℕ} (h : l.length = 4) :
    ∃ a b c d, l = [a, b, c, d] := by
  cases l with
  | nil => simp at h
  | cons a l1 =>
    cases l1 with
    | nil => simp at h
    | cons b l2 =>
      cases l2 with
      | nil => simp at h
      | cons c l3 =>
        cases l3 with
        | nil => simp at h
        | cons d l4 =>
          cases l4 with
          | nil => exact ⟨a, b, c, d, rfl⟩
          | cons e l5 => simp at h

/-- Correctness of the example oracle: every path it returns starts and
ends at the requested nodes and is a walk in `Gex`. -/
theorem spExOk : ∀ s e p, spEx s e = some p →
    p.head? = some s ∧ p.getLast? = some e ∧
      List.Chain' (fun u v => Gex.adj u v = true) p := by
  intro s e p h
  unfold spEx at h
  obtain ⟨q, hq, hq2⟩ := Option.map_eq_some'.mp h
  have hqmem := List.mem_of_find?_eq_some hq
  have hq1 : q.1 = (s, e) := by
    have hpred := List.find?_some hq
    simpa using hpred
  have hall : ∀ q ∈ spTable, q.2.head? = some q.1.1 ∧ q.2.getLast? = some q.1.2 ∧
      List.Chain' (fun u v => Gex.adj u v = true) q.2 := by
    intro q hqt
    simp only [spTable, List.mem_cons, List.not_mem_nil, or_false] at hqt
    rcases hqt with rfl | rfl | rfl | rfl <;>
      exact ⟨rfl, rfl, List.chain'_cons.mpr ⟨rfl, List.chain'_singleton _⟩⟩
  obtain ⟨h1, h2, h3⟩ := hall q hqmem
  rw [hq1] at h1 h2
  subst hq2
  exact ⟨h1, h2, h3⟩

/-- Structure of every successful loop build, given a shortest-path
primitive that returns walks with the requested endpoints: the stitched
route starts at the first sampled waypoint, ends at that same node, is a
walk of the graph (junction concatenation included), and has at least two
nodes. -/
theorem loopRoute_structure (g : RoadGraph) (sp : ℕ → ℕ → Option (List ℕ))
    (c? : Option (ℚ × ℚ)) (radius : ℚ) (t : ℕ → ℕ)
    (hND : g.nodes.Nodup)
    (hsp : ∀ s e p, sp s e = some p → p.head? = some s ∧ p.getLast? = some e ∧
      List.Chain' (fun u v => g.adj u v = true) p)
    {r : List ℕ} {d : ℚ} {c : ℚ × ℚ}
    (h : loopRoute? g sp c? radius t = some (r, d, c)) :
    r.head? = some ((loopWaypoints g c? radius t).headD 0) ∧
    r.getLast? = r.head? ∧
    List.Chain' (fun u v => g.adj u v = true) r ∧
    2 ≤ r.length := by
  unfold loopRoute? at h
  by_cases hlen : (loopNearby g c? radius t).length < 4
  · rw [if_pos hlen] at h
    simp at h
  · rw [if_neg hlen] at h
    have hmin : min 4 (loopNearby g c? radius t).length = 4 :=
      Nat.min_eq_left (by omega)
    have hws4 : (loopWaypoints g c? radius t).length = 4 := by
      unfold loopWaypoints
      rw [sampleK_length, hmin, hmin]
    have hnodup : (loopWaypoints g c? radius t).Nodup := by
      unfold loopWaypoints
      exact sampleK_nodup t _ _ _ (List.Nodup.filter _ hND)
    obtain ⟨w0, w1, w2, w3, hws⟩ := length_eq_four hws4
    rw [hws] at hnodup
    simp only [List.nodup_cons, List.mem_cons, List.not_mem_nil, or_false, not_or,
      List.nodup_nil, and_true] at hnodup
    obtain ⟨⟨h01, h02, h03⟩, ⟨h12, h13⟩, h23, -⟩ := hnodup
    have hpairs : loopPairs [w0, w1, w2, w3] = [(w0, w1), (w1, w2), (w2, w3), (w3, w0)] := by
      simp [loopPairs, List.range_succ]
    rw [hws, hpairs] at h
    obtain ⟨⟨r0, d0⟩, hst, hmap⟩ := Option.map_eq_some'.mp h
    have hr0 : r0 = r := congrArg (fun z => z.1) hmap
    cases h1 : sp w0 w1 with
    | none => rw [stitch, h1] at hst; simp at hst
    | some p1 =>
    cases h2 : sp w1 w2 with
    | none => rw [stitch, h1, stitch, h2] at hst; simp at hst
    | some p2 =>
    cases h3 : sp w2 w3 with
    | none => rw [stitch, h1, stitch, h2, stitch, h3] at hst; simp at hst
    | some p3 =>
    cases h4 : sp w3 w0 with
    | none => rw [stitch, h1, stitch, h2, stitch, h3, stitch, h4] at hst; simp at hst
    | some p4 =>
    obtain ⟨hh1, hl1, hc1⟩ := hsp _ _ _ h1
    obtain ⟨hh2, hl2, hc2⟩ := hsp _ _ _ h2
    obtain ⟨hh3, hl3, hc3⟩ := hsp _ _ _ h3
    obtain ⟨hh4, hl4, hc4⟩ := hsp _ _ _ h4
    obtain ⟨q1, hp1, hq1ne, hq1l⟩ := path_shape hh1 hl1 h01
    obtain ⟨q2, hp2, hq2ne, hq2l⟩ := path_shape hh2 hl2 h12
    obtain ⟨q3, hp3, hq3ne, hq3l⟩ := path_shape hh3 hl3 h23
    obtain ⟨q4, hp4, hq4ne, hq4l⟩ := path_shape hh4 hl4 (Ne.symm h03)
    have hrval : r = p1 ++ (q2 ++ (q3 ++ q4)) := by
      rw [← hr0]
      have : stitch g sp [(w0, w1), (w1, w2), (w2, w3), (w3, w0)] true =
          some (p1 ++ (p2.drop 1 ++ (p3.drop 1 ++ (p4.drop 1 ++ []))),
            routeLength g p1 + (routeLength g (p2.drop 1) +
              (routeLength g (p3.drop 1) + (routeLength g (p4.drop 1) + 0)))) := by
        rw [stitch, h1, stitch, h2, stitch, h3, stitch, h4, stitch]
        rfl
      rw [this] at hst
      have := (Option.some.inj hst)
      have hfst := congrArg (fun z => z.1) this
      simp only at hfst
      rw [← hfst, hp2, hp3, hp4]
      simp [List.drop_one]
    have hchain2 := List.chain'_cons'.mp (hp2 ▸ hc2)
    have hchain3 := List.chain'_cons'.mp (hp3 ▸ hc3)
    have hchain4 := List.chain'_cons'.mp (hp4 ▸ hc4)
    have hq234ne : q2 ++ (q3 ++ q4) ≠ [] := by
      simp [hq2ne]
    have hheadr : r.head? = some w0 := by
      rw [hrval, hp1]
      rfl
    refine ⟨?_, ?_, ?_, ?_⟩
    · rw [hheadr, hws]
      rfl
    · rw [hheadr, hrval, List.getLast?_append_of_ne_nil _ hq234ne,
        List.getLast?_append_of_ne_nil _ (by simp [hq3ne]),
        List.getLast?_append_of_ne_nil _ hq4ne, hq4l]
    · rw [hrval]
      have hC34 : List.Chain' (fun u v => g.adj u v = true) (q3 ++ q4) := by
        refine List.Chain'.append hchain3.2 hchain4.2 ?_
        intro x hx y hy
        rw [hq3l] at hx
        rw [Option.mem_some_iff] at hx
        subst hx
        exact hchain4.1 y hy
      have hC234 : List.Chain' (fun u v => g.adj u v = true) (q2 ++ (q3 ++ q4)) := by
        refine List.Chain'.append hchain2.2 hC34 ?_
        intro x hx y hy
        rw [hq2l] at hx
        rw [Option.mem_some_iff] at hx
        subst hx
        rw [List.head?_append_of_ne_nil _ hq3ne] at hy
        exact hchain3.1 y hy
      refine List.Chain'.append hc1 hC234 ?_
      intro x hx y hy
      rw [hl1] at hx
      rw [Option.mem_some_iff] at hx
      subst hx
      rw [List.head?_append_of_ne_nil _ hq2ne] at hy
      exact hchain2.1 y hy
    · rw [hrval, hp1]
      simp only [List.cons_append, List.length_cons, List.length_append]
      have : 0 < q1.length := List.length_pos.mpr hq1ne
      omega

/-- The speed test passes exactly when the maxspeed is present and its
first embedded integer is at least 45. -/
theorem speedAtLeast45_iff (o : Option String) :
    speedAtLeast45 o = true ↔ ∃ s k, o = some s ∧ firstInt? s.data = some k ∧ 45 ≤ k := by
  cases o with
  | none => simp [speedAtLeast45]
  | some s =>
    simp only [speedAtLeast45]
    cases hf : firstInt? s.data with
    | none =>
      simp only [Bool.false_eq_true, false_iff]
      rintro ⟨s', k, hs, hk, -⟩
      rw [← Option.some.inj hs] at hk
      rw [hf] at hk
      exact Option.noConfusion hk
    | some k =>
      simp only [decide_eq_true_eq]
      constructor
      · intro h45
        exact ⟨s, k, rfl, hf, h45⟩
      · rintro ⟨s', k', hs, hk, h45⟩
        rw [← Option.some.inj hs] at hk
        rw [hf] at hk
        rw [Option.some.inj hk]
        exact h45

/-- The edge filter passes exactly under the claimed condition: major
highway class, or parsed maxspeed at least 45. -/
theorem isMajorEdgeB_iff (e : ℕ × ℕ × EdgeAttrs) :
    isMajorEdgeB e = true ↔
      (e.2.2.highway ∈ (["motorway", "trunk", "primary", "secondary"] : List String) ∨
        ∃ s k, e.2.2.maxspeed = some s ∧ firstInt? s.data = some k ∧ 45 ≤ k) := by
  unfold isMajorEdgeB
  rw [Bool.or_eq_true, speedAtLeast45_iff]
  constructor
  · rintro (hc | hs)
    · left
      have := List.contains_iff_exists_mem_beq.mp hc
      obtain ⟨b, hb, hbeq⟩ := this
      rw [show e.2.2.highway = b from eq_of_beq hbeq]
      exact hb
    · right
      exact hs
  · rintro (hm | hs)
    · left
      exact List.contains_iff_exists_mem_beq.mpr ⟨e.2.2.highway, hm, beq_self_eq_true _⟩
    · right
      exact hs

/-- Every returned scenic route was produced by the shortest-path primitive
for a pair of distinct drawn endpoints. -/
theorem scenicRoute?_from_sp {g : RoadGraph} {sp : ℕ → ℕ → Option (List ℕ)}
    {minD maxD : ℚ} {t : ℕ → ℕ} {r : List ℕ} {d : ℚ}
    (h : scenicRoute? g sp minD maxD t = some (r, d)) :
    ∃ s e, s ≠ e ∧ sp s e = some r := by
  obtain ⟨-, l₁, l₂, hsplit, -, -⟩ := scenicRoute?_some h
  have hmem : (r, d) ∈ scenicCandidates g sp (majorNodesList g) minD maxD (scenicDraws t) := by
    rw [hsplit]
    exact List.mem_append_right _ (List.mem_cons_self _ _)
  obtain ⟨dr, -, hc⟩ := List.mem_filterMap.mp hmem
  obtain ⟨-, -, -, s, e, hse, hspr⟩ := scenicCandidate_spec hc
  exact ⟨s, e, hse, hspr⟩

/-- Appending successes one at a time is the same as filtering the
successful outcomes, in order. -/
theorem foldl_appendSome {α β : Type} (f : α → Option β) :
    ∀ (l : List α) (acc : List β),
      l.foldl (appendSome f) acc = acc ++ l.filterMap f := by
  intro l
  induction l with
  | nil =>
    intro acc
    simp
  | cons x tl ih =>
    intro acc
    cases hf : f x with
    | none =>
      simp only [List.foldl_cons, List.filterMap_cons, hf, appendSome]
      exact ih acc
    | some b =>
      simp only [List.foldl_cons, List.filterMap_cons, hf, appendSome]
      rw [ih (acc ++ [b])]
      simp

/-- A fold whose step fixes the accumulator on the repeated element is the
identity on replicated input. -/
theorem foldl_replicate_fixed {α β : Type} (f : β → α → β) (c : α) (acc : β)
    (hfix : f acc c = acc) : ∀ n, (List.replicate n c).foldl f acc = acc := by
  intro n
  induction n with
  | zero => rfl
  | succ k ih =>
    rw [List.replicate_succ, List.foldl_cons, hfix]
    exact ih

/-- Traversed length of the single cycle edge 0 → 1 in the example graph. -/
theorem routeLength_Gex_01 : routeLength Gex [0, 1] = 200 := by
  simp [routeLength, routeEdges, Gex, exAttrs]

/-- Traversed length of the single cycle edge 1 → 2 in the example graph. -/
theorem routeLength_Gex_12 : routeLength Gex [1, 2] = 150 := by
  simp [routeLength, routeEdges, Gex, exAttrs]

/-- Traversed length of the single cycle edge 2 → 3 in the example graph. -/
theorem routeLength_Gex_23 : routeLength Gex [2, 3] = 300 := by
  simp [routeLength, routeEdges, Gex, exAttrs]

/-- Traversed length of the single cycle edge 3 → 0 in the example graph. -/
theorem routeLength_Gex_30 : routeLength Gex [3, 0] = 250 := by
  simp [routeLength, routeEdges, Gex, exAttrs]

/-- A one-node route traverses no edge. -/
theorem routeLength_single (g : RoadGraph) (x : ℕ) : routeLength g [x] = 0 := by
  simp [routeLength, routeEdges]

/-- The scenic search on the example cycle returns the edge 0 → 1 with its
recorded distance 200. -/
theorem scenic_run_Gex : scenicRoute? Gex spEx 100 1000 tEx = some ([0, 1], 200) := by
  have hmaj : majorNodesList Gex = [1, 2, 3, 0] := by decide
  have hdraws : scenicDraws tEx = List.replicate 20 (3, 0) := by decide
  have hstep1 : scenicAttempt Gex spEx [1, 2, 3, 0] 100 1000 ⟨none, 0⟩ (3, 0) =
      ⟨some [0, 1], 200⟩ := by
    simp only [scenicAttempt, choice]
    norm_num [spEx, spTable, routeLength_Gex_01]
  have hstep2 : scenicAttempt Gex spEx [1, 2, 3, 0] 100 1000 ⟨some [0, 1], 200⟩ (3, 0) =
      ⟨some [0, 1], 200⟩ := by
    simp only [scenicAttempt, choice]
    norm_num [spEx, spTable, routeLength_Gex_01]
  simp only [scenicRoute?, hmaj, hdraws]
  rw [if_neg (by norm_num)]
  rw [show (20 : ℕ) = 19 + 1 from rfl, List.replicate_succ, List.foldl_cons, hstep1,
    foldl_replicate_fixed _ _ _ hstep2]
  rfl

/-- Every node of the example cycle lies within 500000 meters of the
origin under the source's degree-to-meter approximation. -/
theorem nearby_run_Gex : loopNearby Gex (some (0, 0)) 500000 tLoop = [0, 1, 2, 3] := by
  have h0 : nearBool Gex (0, 0) 500000 0 = true := by
    simp only [nearBool, dist2, Bool.and_eq_true, decide_eq_true_eq]
    norm_num [Gex]
  have h1 : nearBool Gex (0, 0) 500000 1 = true := by
    simp only [nearBool, dist2, Bool.and_eq_true, decide_eq_true_eq]
    norm_num [Gex]
  have h2 : nearBool Gex (0, 0) 500000 2 = true := by
    simp only [nearBool, dist2, Bool.and_eq_true, decide_eq_true_eq]
    norm_num [Gex]
  have h3 : nearBool Gex (0, 0) 500000 3 = true := by
    simp only [nearBool, dist2, Bool.and_eq_true, decide_eq_true_eq]
    norm_num [Gex]
  show List.filter (nearBool Gex (0, 0) 500000) [0, 1, 2, 3] = [0, 1, 2, 3]
  simp only [List.filter_cons, List.filter_nil, h0, h1, h2, h3, eq_self_iff_true, if_true]

/-- The sampled waypoints of the example loop run are the four cycle nodes
in order. -/
theorem waypoints_run_Gex : loopWaypoints Gex (some (0, 0)) 500000 tLoop = [0, 1, 2, 3] := by
  unfold loopWaypoints
  rw [nearby_run_Gex]
  decide

/-- The loop build on the example cycle returns the stitched route
`[0, 1, 2, 3, 0]` with reported total distance 200: the three truncated
segments contribute nothing. -/
theorem loop_run_Gex :
    loopRoute? Gex spEx (some (0, 0)) 500000 tLoop = some ([0, 1, 2, 3, 0], 200, (0, 0)) := by
  have e1 : spEx 0 1 = some [0, 1] := by decide
  have e2 : spEx 1 2 = some [1, 2] := by decide
  have e3 : spEx 2 3 = some [2, 3] := by decide
  have e4 : spEx 3 0 = some [3, 0] := by decide
  have hpairs : loopPairs [0, 1, 2, 3] = [(0, 1), (1, 2), (2, 3), (3, 0)] := by decide
  have hst : stitch Gex spEx [(0, 1), (1, 2), (2, 3), (3, 0)] true =
      some ([0, 1, 2, 3, 0], 200) := by
    rw [stitch, e1, stitch, e2, stitch, e3, stitch, e4, stitch]
    norm_num [routeLength_Gex_01, routeLength_single]
  unfold loopRoute?
  rw [nearby_run_Gex, waypoints_run_Gex]
  rw [if_neg (by norm_num), hpairs, hst]
  rfl

/-- The only edge of `Gz` has length 0. -/
theorem routeLength_Gz_01 : routeLength Gz [0, 1] = 0 := by
  simp [routeLength, routeEdges, Gz, zAttrs]

/-- Each attempt on `Gz` qualifies with distance 0: the sampled route lies
inside the window [0, 10]. -/
theorem candidate_run_Gz :
    scenicCandidate Gz spz [0, 1] 0 10 (0, 1) = some ([0, 1], 0) := by
  simp only [scenicCandidate, choice]
  norm_num [spz, routeLength_Gz_01]

/-- The qualifying-candidate list of the `Gz` run is nonempty. -/
theorem candidates_run_Gz_ne_nil :
    scenicCandidates Gz spz (majorNodesList Gz) 0 10 (scenicDraws tz) ≠ [] := by
  have hmajz : majorNodesList Gz = [0, 1] := by decide
  have hdrawsz : scenicDraws tz = List.replicate 20 (0, 1) := by decide
  rw [hmajz, hdrawsz]
  unfold scenicCandidates
  rw [show (20 : ℕ) = 19 + 1 from rfl, List.replicate_succ]
  simp only [List.filterMap_cons, candidate_run_Gz]
  simp

/-- The scenic search on `Gz` returns absence: the qualifying distance 0
never beats the initial best distance 0. -/
theorem scenic_run_Gz : scenicRoute? Gz spz 0 10 tz = none := by
  have hmajz : majorNodesList Gz = [0, 1] := by decide
  have hdrawsz : scenicDraws tz = List.replicate 20 (0, 1) := by decide
  have hstep : scenicAttempt Gz spz [0, 1] 0 10 ⟨none, 0⟩ (0, 1) = ⟨none, 0⟩ := by
    simp only [scenicAttempt, choice]
    norm_num [spz, routeLength_Gz_01]
  simp only [scenicRoute?, hmajz, hdrawsz]
  rw [if_neg (by norm_num)]
  rw [foldl_replicate_fixed _ _ _ hstep]
  rfl

/-- C4: `_calculate_difficulty` is a pure function of the route's per-edge
highway-class sequence computing, in order: medium when the sequence is
empty, extreme when the motorway ratio exceeds 1/2, hard when motorway
plus primary ratio exceeds 3/5, medium when the primary ratio exceeds 2/5,
and easy otherwise — exactly the classifier the spec describes, checks
applied in that order, first match winning. -/
theorem difficulty_matches_spec (es : List EdgeAttrs) :
    calculate_difficulty es = difficultySpec (es.map (fun e => e.highway)) := by
  simp only [calculate_difficulty, difficultySpec, List.countP_eq_length_filter,
    div_add_div_same, List.length_map]

/-- C5: a node is a major node exactly when it is an endpoint of an edge
whose highway class lies in {motorway, trunk, primary, secondary} or whose
maxspeed parses (first embedded integer) to at least 45; and whenever
fewer than two major nodes exist the scenic generator fails terminally,
returning absence for the whole request. -/
theorem major_nodes_characterization (g : RoadGraph) (n : ℕ) :
    (n ∈ majorNodesList g ↔ ∃ e ∈ g.edgeList,
      (e.2.2.highway ∈ (["motorway", "trunk", "primary", "secondary"] : List String) ∨
        ∃ s k, e.2.2.maxspeed = some s ∧ firstInt? s.data = some k ∧ 45 ≤ k) ∧
      (n = e.1 ∨ n = e.2.1)) ∧
    ((majorNodesList g).length < 2 →
      ∀ (sp : ℕ → ℕ → Option (List ℕ)) (minD maxD : ℚ) (t : ℕ → ℕ) (sfx : ℕ),
        generate_scenic_route g sp minD maxD t sfx = none) := by
  constructor
  · rw [majorNodesList, List.mem_dedup, List.mem_flatMap]
    constructor
    · rintro ⟨e, hmem, hend⟩
      rw [List.mem_filter] at hmem
      refine ⟨e, hmem.1, (isMajorEdgeB_iff e).mp hmem.2, ?_⟩
      simpa using hend
    · rintro ⟨e, hmem, hcond, hend⟩
      refine ⟨e, List.mem_filter.mpr ⟨hmem, (isMajorEdgeB_iff e).mpr hcond⟩, ?_⟩
      simpa using hend
  · intro hlen sp minD maxD t sfx
    simp only [generate_scenic_route, scenicRoute?]
    rw [if_pos hlen]
    rfl

/-- Witness for C5: `gNoMajor` has no matching edge, so its major-node
list falls below two elements and the scenic generator returns absence. -/
theorem major_nodes_characterization_witness :
    generate_scenic_route gNoMajor spz 100 1000 tz 0 = none :=
  (major_nodes_characterization gNoMajor 0).2 (by decide) spz 100 1000 tz 0

/-- C2: whenever the scenic search returns a route, the sum of that
route's traversed edge lengths lies within the requested window. -/
theorem scenic_route_within_window (g : RoadGraph) (sp : ℕ → ℕ → Option (List ℕ))
    (minD maxD : ℚ) (t : ℕ → ℕ) (r : List ℕ) (d : ℚ)
    (h : scenicRoute? g sp minD maxD t = some (r, d)) :
    minD ≤ routeLength g r ∧ routeLength g r ≤ maxD := by
  obtain ⟨-, l₁, l₂, hsplit, -, -⟩ := scenicRoute?_some h
  have hmem : (r, d) ∈ scenicCandidates g sp (majorNodesList g) minD maxD (scenicDraws t) := by
    rw [hsplit]
    exact List.mem_append_right _ (List.mem_cons_self _ _)
  obtain ⟨dr, -, hc⟩ := List.mem_filterMap.mp hmem
  obtain ⟨hd, h1, h2, -⟩ := scenicCandidate_spec hc
  exact ⟨hd ▸ h1, hd ▸ h2⟩

/-- Witness for C2 at the example cycle: the returned route `[0, 1]` has
traversed length inside the window [100, 1000]. -/
theorem scenic_route_within_window_witness :
    (100 : ℚ) ≤ routeLength Gex [0, 1] ∧ routeLength Gex [0, 1] ≤ 1000 :=
  scenic_route_within_window Gex spEx 100 1000 tEx [0, 1] 200 scenic_run_Gex

/-- C3: the batch generator gives each index exactly one attempt at its
parity-assigned strategy (scenic for even indices, loop for odd, with the
jittered parameters of lines 304-312), silently skips failures with no
retry, and returns the successes in index order — hence between 0 and
`count` features. -/
theorem collection_one_attempt_per_index (g : RoadGraph) (sp : ℕ → ℕ → Option (List ℕ))
    (R : ℕ → ℕ → ℕ) (n : ℕ) :
    generate_multiple_routes g sp R n = (List.range n).filterMap (routeAttempt g sp R) ∧
    (generate_multiple_routes g sp R n).length ≤ n ∧
    ∀ i, routeAttempt g sp R i =
      if i % 2 = 0 then
        generate_scenic_route g sp
          ((15000 : ℚ) + ((randint (-5000) 10000 (R i 0) : ℤ) : ℚ))
          ((50000 : ℚ) + ((randint (-10000) 20000 (R i 1) : ℤ) : ℚ))
          (fun k => R i (k + 2)) (R i 1000)
      else
        generate_loop_route g sp none
          ((3000 : ℚ) + ((randint 1000 5000 (R i 0) : ℤ) : ℚ))
          (fun k => R i (k + 1)) (R i 1000) := by
  have heq : generate_multiple_routes g sp R n =
      (List.range n).filterMap (routeAttempt g sp R) := by
    unfold generate_multiple_routes
    rw [foldl_appendSome]
    simp
  refine ⟨heq, ?_, fun i => rfl⟩
  rw [heq]
  calc ((List.range n).filterMap (routeAttempt g sp R)).length
      ≤ (List.range n).length := List.length_filterMap_le _ _
    _ = n := List.length_range n

/-- C1 (evaluation at the failing input): on the four-node cycle whose
consecutive-waypoint shortest-path segments measure 200, 150, 300 and 250
meters, the loop build returns total length 200 rather than the 900 the
claim states — every segment after the first is truncated by its leading
junction node before its edge lengths are summed, so each such segment
loses its first edge (here, its only edge). -/
theorem loop_total_length_drops_edges :
    loopRoute? Gex spEx (some (0, 0)) 500000 tLoop = some ([0, 1, 2, 3, 0], 200, (0, 0)) ∧
    routeLength Gex [0, 1] + routeLength Gex [1, 2] + routeLength Gex [2, 3] +
      routeLength Gex [3, 0] = 900 ∧
    (200 : ℚ) ≠ 900 := by
  refine ⟨loop_run_Gex, ?_, by norm_num⟩
  rw [routeLength_Gex_01, routeLength_Gex_12, routeLength_Gex_23, routeLength_Gex_30]
  norm_num

/-- C6 (amended): the scenic search consumes exactly its 20-attempt budget
— its outcome depends only on the first 40 tape draws, two per attempt,
equal-endpoint and no-path draws included; a returned route is the first
qualifying sampled route attaining the maximum (necessarily positive)
distance, ties keeping the first found; and it returns absence exactly
when no attempt qualified with positive distance — an in-window route of
length 0 is never recorded, since the best distance starts at 0. -/
theorem scenic_budget_and_best_selection (g : RoadGraph) (sp : ℕ → ℕ → Option (List ℕ))
    (minD maxD : ℚ) (t t' : ℕ → ℕ) :
    ((∀ i, i < 40 → t i = t' i) →
      scenicRoute? g sp minD maxD t = scenicRoute? g sp minD maxD t') ∧
    (scenicRoute? g sp minD maxD t = none ↔
      ∀ c ∈ scenicCandidates g sp (majorNodesList g) minD maxD (scenicDraws t), c.2 ≤ 0) ∧
    (∀ r d, scenicRoute? g sp minD maxD t = some (r, d) →
      0 < d ∧ ∃ l₁ l₂,
        scenicCandidates g sp (majorNodesList g) minD maxD (scenicDraws t) =
          l₁ ++ (r, d) :: l₂ ∧ (∀ p ∈ l₁, p.2 < d) ∧ (∀ p ∈ l₂, p.2 ≤ d)) := by
  refine ⟨?_, scenicRoute?_none_iff g sp minD maxD t, fun r d h => scenicRoute?_some h⟩
  intro hagree
  have hdraws : scenicDraws t = scenicDraws t' := by
    unfold scenicDraws
    apply List.map_congr_left
    intro i hi
    have hi20 : i < 20 := List.mem_range.mp hi
    rw [hagree (2 * i) (by omega), hagree (2 * i + 1) (by omega)]
  unfold scenicRoute?
  rw [hdraws]

/-- Witness for C6 at the example cycle: the returned pair `([0, 1], 200)`
has positive distance and splits the candidate list as the first maximum. -/
theorem scenic_budget_and_best_selection_witness :
    0 < (200 : ℚ) ∧ ∃ l₁ l₂,
      scenicCandidates Gex spEx (majorNodesList Gex) 100 1000 (scenicDraws tEx) =
        l₁ ++ ([0, 1], 200) :: l₂ ∧ (∀ p ∈ l₁, p.2 < 200) ∧ (∀ p ∈ l₂, p.2 ≤ 200) :=
  (scenic_budget_and_best_selection Gex spEx 100 1000 tEx tEx).2.2 [0, 1] 200 scenic_run_Gex

/-- Counterexample to C6 as stated: on `Gz` with window [0, 10] an attempt
qualifies (the candidate list is nonempty — its routes are in-window),
yet the search returns absence, because the qualifying route has total
length 0 and the best-so-far comparison `total > 0` never fires. -/
theorem scenic_zero_length_route_dropped :
    scenicCandidates Gz spz (majorNodesList Gz) 0 10 (scenicDraws tz) ≠ [] ∧
    scenicRoute? Gz spz 0 10 tz = none :=
  ⟨candidates_run_Gz_ne_nil, scenic_run_Gz⟩

/-- The scenic feature of the example run, spelled out. -/
theorem gen_scenic_run_Gex :
    generate_scenic_route Gex spEx 100 1000 tEx 0 = some (mkScenicFeature Gex [0, 1] 200 0) := by
  unfold generate_scenic_route
  rw [scenic_run_Gex]
  rfl

/-- The loop feature of the example run, spelled out. -/
theorem gen_loop_run_Gex :
    generate_loop_route Gex spEx (some (0, 0)) 500000 tLoop 0 =
      some (mkLoopFeature Gex [0, 1, 2, 3, 0] 200 (0, 0) 0) := by
  unfold generate_loop_route
  rw [loop_run_Gex]
  rfl

/-- C7: the geometry of every feature produced by either strategy — each
strategy taken on its own, over all of its inputs — is the image of an
underlying route: one (lon, lat) pair per route node, in route order, and
that route is a walk of the graph: every consecutive node pair is
graph-adjacent, including across the junctions where loop segments are
concatenated. -/
theorem feature_geometry_walk (g : RoadGraph) (sp : ℕ → ℕ → Option (List ℕ))
    (hND : g.nodes.Nodup)
    (hsp : ∀ s e p, sp s e = some p → p.head? = some s ∧ p.getLast? = some e ∧
      List.Chain' (fun u v => g.adj u v = true) p) :
    (∀ (minD maxD : ℚ) (t : ℕ → ℕ) (sfx : ℕ) (f : RouteFeature),
      generate_scenic_route g sp minD maxD t sfx = some f →
      ∃ r, f.coordinates = r.map (fun n => (g.x n, g.y n)) ∧
        List.Chain' (fun u v => g.adj u v = true) r ∧ 2 ≤ r.length) ∧
    (∀ (c? : Option (ℚ × ℚ)) (radius : ℚ) (t : ℕ → ℕ) (sfx : ℕ) (f : RouteFeature),
      generate_loop_route g sp c? radius t sfx = some f →
      ∃ r, f.coordinates = r.map (fun n => (g.x n, g.y n)) ∧
        List.Chain' (fun u v => g.adj u v = true) r ∧ 2 ≤ r.length) := by
  constructor
  · intro minD maxD t sfx f h₁
    obtain ⟨⟨r, d⟩, hrd, hf⟩ := Option.map_eq_some'.mp h₁
    obtain ⟨s, e, hse, hspr⟩ := scenicRoute?_from_sp hrd
    obtain ⟨hh, hl, hch⟩ := hsp s e r hspr
    obtain ⟨q, hq, hqne, -⟩ := path_shape hh hl hse
    refine ⟨r, by rw [← hf]; rfl, hch, ?_⟩
    rw [hq]
    simp only [List.length_cons]
    have := List.length_pos.mpr hqne
    omega
  · intro c? radius t sfx f h₂
    obtain ⟨⟨r, d0, c0⟩, hrd, hf⟩ := Option.map_eq_some'.mp h₂
    obtain ⟨-, -, hch, hlen2⟩ := loopRoute_structure g sp c? radius t hND hsp hrd
    exact ⟨r, by rw [← hf]; rfl, hch, hlen2⟩

/-- Witness for C7 at the example cycle, instantiating each strategy's
half independently. -/
theorem feature_geometry_walk_witness :
    (∃ r, (mkScenicFeature Gex [0, 1] 200 0).coordinates =
        r.map (fun n => (Gex.x n, Gex.y n)) ∧
      List.Chain' (fun u v => Gex.adj u v = true) r ∧ 2 ≤ r.length) ∧
    (∃ r, (mkLoopFeature Gex [0, 1, 2, 3, 0] 200 (0, 0) 0).coordinates =
        r.map (fun n => (Gex.x n, Gex.y n)) ∧
      List.Chain' (fun u v => Gex.adj u v = true) r ∧ 2 ≤ r.length) :=
  ⟨(feature_geometry_walk Gex spEx (by decide) spExOk).1 100 1000 tEx 0
      (mkScenicFeature Gex [0, 1] 200 0) gen_scenic_run_Gex,
   (feature_geometry_walk Gex spEx (by decide) spExOk).2 (some (0, 0)) 500000 tLoop 0
      (mkLoopFeature Gex [0, 1, 2, 3, 0] 200 (0, 0) 0) gen_loop_run_Gex⟩

/-- C8 (amended): every scenic feature — over all windows, tapes and
suffixes — carries a roads list of at most 10 distinct road names drawn
from the names encountered along the route's edges (the cap holds even
when more names occur); and every loop feature, over all of its inputs,
carries no roads list at all. -/
theorem roads_cap_and_loop_absence (g : RoadGraph) (sp : ℕ → ℕ → Option (List ℕ)) :
    (∀ (minD maxD : ℚ) (t : ℕ → ℕ) (sfx : ℕ) (f : RouteFeature),
      generate_scenic_route g sp minD maxD t sfx = some f →
      ∃ l r d, scenicRoute? g sp minD maxD t = some (r, d) ∧ f.roads = some l ∧
        l.length ≤ 10 ∧ l.Nodup ∧
        ∀ s ∈ l, s ∈ (routeEdges g r).flatMap (fun e => namesOf e.rname)) ∧
    (∀ (c? : Option (ℚ × ℚ)) (radius : ℚ) (t : ℕ → ℕ) (sfx : ℕ) (f : RouteFeature),
      generate_loop_route g sp c? radius t sfx = some f → f.roads = none) := by
  constructor
  · intro minD maxD t sfx f h₁
    obtain ⟨⟨r, d⟩, hrd, hf⟩ := Option.map_eq_some'.mp h₁
    refine ⟨(roadNamesOf (routeEdges g r)).take 10, r, d, hrd, by rw [← hf]; rfl, ?_, ?_, ?_⟩
    · rw [List.length_take]
      exact min_le_left _ _
    · exact List.Nodup.sublist (List.take_sublist _ _) (List.nodup_dedup _)
    · intro s hs
      exact List.mem_dedup.mp (List.take_subset _ _ hs)
  · intro c? radius t sfx f h₂
    obtain ⟨⟨r, d0, c0⟩, -, hf⟩ := Option.map_eq_some'.mp h₂
    rw [← hf]
    rfl

/-- Witness for C8 at the example cycle, instantiating each strategy's
half independently. -/
theorem roads_cap_and_loop_absence_witness :
    (∃ l r d, scenicRoute? Gex spEx 100 1000 tEx = some (r, d) ∧
      (mkScenicFeature Gex [0, 1] 200 0).roads = some l ∧ l.length ≤ 10 ∧ l.Nodup ∧
      ∀ s ∈ l, s ∈ (routeEdges Gex r).flatMap (fun e => namesOf e.rname)) ∧
    (mkLoopFeature Gex [0, 1, 2, 3, 0] 200 (0, 0) 0).roads = none :=
  ⟨(roads_cap_and_loop_absence Gex spEx).1 100 1000 tEx 0
      (mkScenicFeature Gex [0, 1] 200 0) gen_scenic_run_Gex,
   (roads_cap_and_loop_absence Gex spEx).2 (some (0, 0)) 500000 tLoop 0
      (mkLoopFeature Gex [0, 1, 2, 3, 0] 200 (0, 0) 0) gen_loop_run_Gex⟩

/-- Counterexample to C8 as stated: a successfully generated loop feature
whose properties contain no roads list. -/
theorem loop_feature_without_roads :
    (generate_loop_route Gex spEx (some (0, 0)) 500000 tLoop 0).map
      (fun f => f.roads) = some none := by
  rw [gen_loop_run_Gex]
  rfl

/-- C9: each strategy — taken on its own, over all of its inputs —
derives the mile distance from the same total meter length as the
kilometre distance, so `distance_miles` equals
`distance_km * 1000 / 1609.34` exactly (1609.34 being 160934/100). -/
theorem distance_miles_from_km (g : RoadGraph) (sp : ℕ → ℕ → Option (List ℕ)) :
    (∀ (minD maxD : ℚ) (t : ℕ → ℕ) (sfx : ℕ) (f : RouteFeature),
      generate_scenic_route g sp minD maxD t sfx = some f →
      f.distance_miles = f.distance_km * 1000 / (160934 / 100)) ∧
    (∀ (c? : Option (ℚ × ℚ)) (radius : ℚ) (t : ℕ → ℕ) (sfx : ℕ) (f : RouteFeature),
      generate_loop_route g sp c? radius t sfx = some f →
      f.distance_miles = f.distance_km * 1000 / (160934 / 100)) := by
  constructor
  · intro minD maxD t sfx f h₁
    obtain ⟨⟨r, d⟩, -, hf⟩ := Option.map_eq_some'.mp h₁
    rw [← hf]
    show d / (160934 / 100) = d / 1000 * 1000 / (160934 / 100)
    rw [div_mul_cancel₀ d (by norm_num : (1000 : ℚ) ≠ 0)]
  · intro c? radius t sfx f h₂
    obtain ⟨⟨r, d0, c0⟩, -, hf⟩ := Option.map_eq_some'.mp h₂
    rw [← hf]
    show d0 / (160934 / 100) = d0 / 1000 * 1000 / (160934 / 100)
    rw [div_mul_cancel₀ d0 (by norm_num : (1000 : ℚ) ≠ 0)]

/-- Witness for C9 at the example cycle, instantiating each strategy's
half independently. -/
theorem distance_miles_from_km_witness :
    (mkScenicFeature Gex [0, 1] 200 0).distance_miles =
      (mkScenicFeature Gex [0, 1] 200 0).distance_km * 1000 / (160934 / 100) ∧
    (mkLoopFeature Gex [0, 1, 2, 3, 0] 200 (0, 0) 0).distance_miles =
      (mkLoopFeature Gex [0, 1, 2, 3, 0] 200 (0, 0) 0).distance_km * 1000 / (160934 / 100) :=
  ⟨(distance_miles_from_km Gex spEx).1 100 1000 tEx 0
      (mkScenicFeature Gex [0, 1] 200 0) gen_scenic_run_Gex,
   (distance_miles_from_km Gex spEx).2 (some (0, 0)) 500000 tLoop 0
      (mkLoopFeature Gex [0, 1, 2, 3, 0] 200 (0, 0) 0) gen_loop_run_Gex⟩

/-- C10: every successful loop build returns a route that begins at the
first sampled waypoint and ends at that same node — the first segment
starts there and the wrap-around segment ends there with only its leading
junction node removed — so the returned loop is geometrically closed. -/
theorem loop_route_closed (g : RoadGraph) (sp : ℕ → ℕ → Option (List ℕ))
    (c? : Option (ℚ × ℚ)) (radius : ℚ) (t : ℕ → ℕ) (hND : g.nodes.Nodup)
    (hsp : ∀ s e p, sp s e = some p → p.head? = some s ∧ p.getLast? = some e ∧
      List.Chain' (fun u v => g.adj u v = true) p)
    (r : List ℕ) (d : ℚ) (c : ℚ × ℚ)
    (h : loopRoute? g sp c? radius t = some (r, d, c)) :
    r.head? = some ((loopWaypoints g c? radius t).headD 0) ∧ r.getLast? = r.head? := by
  obtain ⟨hh, hl, -, -⟩ := loopRoute_structure g sp c? radius t hND hsp h
  exact ⟨hh, hl⟩

/-- Witness for C10 at the example cycle: the stitched route
`[0, 1, 2, 3, 0]` starts and ends at waypoint 0. -/
theorem loop_route_closed_witness :
    ([0, 1, 2, 3, 0] : List ℕ).head? =
      some ((loopWaypoints Gex (some (0, 0)) 500000 tLoop).headD 0) ∧
    ([0, 1, 2, 3, 0] : List ℕ).getLast? = ([0, 1, 2, 3, 0] : List ℕ).head? :=
  loop_route_closed Gex spEx (some (0, 0)) 500000 tLoop (by decide) spExOk
    [0, 1, 2, 3, 0] 200 (0, 0) loop_run_Gex
